import Mathlib

/-!
Verification model of the json-logic-rs JsonLogic engine
(`src/js_op.rs`, `src/value.rs`, `src/op/*.rs`, `src/lib.rs`).

Modelling conventions:
* `serde_json::Value` is embedded as the inductive `Json`.  JSON numbers
  are carried as exact rationals (`Rat`): every finite IEEE-754 double is
  a (dyadic) rational, and the claims under study never depend on
  rounding, so double arithmetic is modelled exactly.  Non-finite doubles
  (`+inf`, `-inf`, `NaN`), which arise inside the engine as intermediate
  `f64` results (division by zero, the `min`/`max` fold identities), are
  modelled by the wrapper type `JsNum`.
* serde's distinction between integer-stored and float-stored numbers
  (`1` vs `1.0`) is collapsed: a rational with denominator 1 is treated
  as integer-stored.  This matches every JSON literal whose surface form
  is an integer.
* `f64::from_str` / `str::parse::<f64>` is modelled by an exact decimal
  parser (`parseF64`); IEEE rounding and the `inf`/`nan` literal forms
  are idealized away.
* the reference-equality fast path of `strict_eq` (`std::ptr::eq`) is
  modelled as false: the evaluator only ever compares distinct argument
  slots.
* the recursive evaluator is a fuel-indexed function `eval`; fuel is the
  model's termination device (the Rust evaluator can in fact recurse
  unboundedly through computed `var` defaults).  Theorems are stated at
  any sufficient fuel.
-/

/-- Model of `serde_json::Value`.  Objects are insertion-ordered
association lists. -/
inductive Json where
  | null
  | bool (b : Bool)
  | num (q : Rat)
  | str (s : String)
  | arr (xs : List Json)
  | obj (kvs : List (String × Json))

mutual

/-- Structural equality of JSON values (serde's `PartialEq` for `Value`;
object comparison is modelled as ordered association-list equality, and
integer/float storage kinds are collapsed — see the header note). -/
def Json.beq : Json → Json → Bool
  | .null, .null => true
  | .bool a, .bool b => a == b
  | .num a, .num b => a == b
  | .str a, .str b => a == b
  | .arr a, .arr b => Json.beqList a b
  | .obj a, .obj b => Json.beqKVList a b
  | _, _ => false

/-- Elementwise equality of JSON arrays. -/
def Json.beqList : List Json → List Json → Bool
  | [], [] => true
  | a :: arest, b :: brest => Json.beq a b && Json.beqList arest brest
  | _, _ => false

/-- Entrywise equality of JSON objects. -/
def Json.beqKVList : List (String × Json) → List (String × Json) → Bool
  | [], [] => true
  | (k1, v1) :: arest, (k2, v2) :: brest =>
    k1 == k2 && Json.beq v1 v2 && Json.beqKVList arest brest
  | _, _ => false

end

instance : BEq Json := ⟨Json.beq⟩

/-- Model of an `f64` scalar: a finite (exact, dyadic-rational) value or
one of the three non-finite IEEE values. -/
inductive JsNum where
  | finite (q : Rat)
  | posInf
  | negInf
  | nan
deriving Repr, DecidableEq

namespace JsNum

/-- IEEE `>` on doubles (used by the `abstract_max` fold): any comparison
with NaN is false. -/
def gtB : JsNum → JsNum → Bool
  | .nan, _ => false
  | _, .nan => false
  | .finite a, .finite b => decide (b < a)
  | .finite _, .negInf => true
  | .finite _, .posInf => false
  | .posInf, .posInf => false
  | .posInf, _ => true
  | .negInf, _ => false

/-- IEEE `<` on doubles (used by the `abstract_min` fold). -/
def ltB (a b : JsNum) : Bool := gtB b a

end JsNum

/-- Decimal digits to a natural number (helper for the exact float
parser). -/
def digitsToNat (cs : List Char) : Nat :=
  cs.foldl (fun acc c => 10 * acc + (c.toNat - '0'.toNat)) 0

/-- Scale a rational by a signed power of ten. -/
def scalePow10 (q : Rat) (e : Int) : Rat :=
  if 0 ≤ e then q * (10 : Rat) ^ e.toNat else q / (10 : Rat) ^ e.natAbs

/-- Exact model of `f64::from_str` (`<f64 as FromStr>::from_str`) on the
numeric grammar `[+-]? (digits [. digits?] | . digits) ([eE] [+-]? digits)?`.
The `inf`/`infinity`/`nan` literal forms and IEEE rounding are idealized
away (no claim under study exercises them). -/
def parseF64 (s : String) : Option Rat :=
  let cs := s.data
  let (neg, cs) :=
    match cs with
    | '-' :: r => (true, r)
    | '+' :: r => (false, r)
    | _ => (false, cs)
  let ip := cs.takeWhile Char.isDigit
  let cs := cs.dropWhile Char.isDigit
  let (haveDot, fp, cs) :=
    match cs with
    | '.' :: r => (true, r.takeWhile Char.isDigit, r.dropWhile Char.isDigit)
    | _ => (false, ([] : List Char), cs)
  if ip.isEmpty && fp.isEmpty then none
  else
    let mant : Rat :=
      scalePow10 ((digitsToNat (ip ++ fp) : Int) : Rat) (-(fp.length : Int))
    let _ := haveDot
    match cs with
    | [] => some (if neg then -mant else mant)
    | 'e' :: r | 'E' :: r =>
      let (eneg, r) :=
        match r with
        | '-' :: r2 => (true, r2)
        | '+' :: r2 => (false, r2)
        | _ => (false, r)
      let ed := r.takeWhile Char.isDigit
      let rest := r.dropWhile Char.isDigit
      if ed.isEmpty || !rest.isEmpty then none
      else
        let ex : Int := if eneg then -(digitsToNat ed : Int) else (digitsToNat ed : Int)
        let v := scalePow10 mant ex
        some (if neg then -v else v)
    | _ => none

/-- `js_op::str_to_number`: the empty string is 0, otherwise parse as a
double. -/
def strToNumber (s : String) : Option Rat :=
  if s = "" then some 0 else parseF64 s

/-- Decimal rendering of a non-integer rational whose denominator divides
a power of ten (every finite double in decimal form is of this shape);
helper for `numToString`. -/
def decimalString (q : Rat) : String :=
  match (List.range 1100).find? (fun k => (q.den : Int) ∣ 10 ^ (k + 1)) with
  | some k0 =>
    let k := k0 + 1
    let scaled : Nat := q.num.natAbs * (10 ^ k / q.den)
    let s := toString scaled
    let s := if s.length ≤ k then String.mk (List.replicate (k + 1 - s.length) '0') ++ s else s
    let ip := s.dropRight k
    let fp := s.takeRight k
    (if q.num < 0 then "-" else "") ++ ip ++ "." ++ fp
  | none => toString q.num ++ "/" ++ toString q.den

/-- Rendering of a JSON number (`serde_json::Number::to_string`):
integer-stored numbers print without a decimal point.  (ryu's
scientific-notation shortest form for very large/small floats is not
reproduced; no claim depends on it.) -/
def numToString (q : Rat) : String :=
  if q.den = 1 then toString q.num else decimalString q

mutual

/-- `js_op::to_string`: JS-compatible stringification of a JSON value. -/
def jsToString : Json → String
  | .obj _ => "[object Object]"
  | .bool b => if b then "true" else "false"
  | .null => "null"
  | .num q => numToString q
  | .str s => s
  | .arr xs => String.intercalate "," (jsToStringElems xs)

/-- Array elements join with `,`; `null` elements stringify to empty. -/
def jsToStringElems : List Json → List String
  | [] => []
  | .null :: rest => "" :: jsToStringElems rest
  | x :: rest => jsToString x :: jsToStringElems rest

end

/-- `js_op::to_primitive_number`: `OrdinaryToPrimitive` with a Number
hint, as far as it can produce a numeric primitive. -/
def toPrimitiveNumber : Json → Option Rat
  | .obj _ => none
  | .arr _ => none
  | .bool b => some (if b then 1 else 0)
  | .null => some 0
  | .num q => some q
  | .str _ => none

/-- `js_op::Primitive`. -/
inductive Primitive where
  | str (s : String)
  | num (q : Rat)
deriving Repr, DecidableEq

/-- `js_op::to_primitive` with the Number (or Default) hint: a numeric
primitive if available, otherwise the string form.  (The String-hint
branch of the source is dead code: every call site passes Number.) -/
def toPrimitiveHintNumber (v : Json) : Primitive :=
  match toPrimitiveNumber v with
  | some q => .num q
  | none => .str (jsToString v)

/-- `js_op::to_number`: JS `Number(value)`, `none` where JS gives NaN. -/
def toNumber (v : Json) : Option Rat :=
  match toPrimitiveHintNumber v with
  | .num q => some q
  | .str s => strToNumber s

/-- Rank used to justify termination of `abstract_eq` (each recursive
call strictly lowers the combined rank, mirroring the source's
bool-to-number and object-to-string rewriting steps). -/
def Json.eqRank : Json → Nat
  | .bool _ => 1
  | .arr _ => 1
  | .obj _ => 1
  | _ => 0

/-- `js_op::abstract_eq`: the ECMA-262 Abstract Equality Comparison
(`==`) restricted to JSON types. -/
def abstract_eq (first second : Json) : Bool :=
  match first, second with
  | .null, .null => true
  | .num x, .num y => x == y
  | .str x, .str y => x == y
  | .bool x, .bool y => x == y
  | .num x, .str y =>
    match strToNumber y with
    | some yn => x == yn
    | none => false
  | .str x, .num y =>
    match strToNumber x with
    | some xn => xn == y
    | none => false
  | .bool x, other => abstract_eq (.num (if x then 1 else 0)) other
  | other, .bool y => abstract_eq other (.num (if y then 1 else 0))
  | .str x, .arr ys => abstract_eq (.str x) (.str (jsToString (.arr ys)))
  | .num x, .arr ys => abstract_eq (.num x) (.str (jsToString (.arr ys)))
  | .str x, .obj ys => abstract_eq (.str x) (.str (jsToString (.obj ys)))
  | .num x, .obj ys => abstract_eq (.num x) (.str (jsToString (.obj ys)))
  | .obj xs, .str y => abstract_eq (.str (jsToString (.obj xs))) (.str y)
  | .obj xs, .num y => abstract_eq (.str (jsToString (.obj xs))) (.num y)
  | .arr xs, .str y => abstract_eq (.str (jsToString (.arr xs))) (.str y)
  | .arr xs, .num y => abstract_eq (.str (jsToString (.arr xs))) (.num y)
  | _, _ => false
termination_by first.eqRank + second.eqRank
decreasing_by all_goals (simp [Json.eqRank]; try omega)

/-- `js_op::strict_eq`: JS `===` (the same-reference fast path for
arrays/objects is modelled as false; the evaluator compares distinct
argument slots). -/
def strict_eq (first second : Json) : Bool :=
  match first, second with
  | .null, .null => true
  | .bool x, .bool y => x == y
  | .num x, .num y => x == y
  | .str x, .str y => x == y
  | _, _ => false

/-- `js_op::strict_ne`. -/
def strict_ne (first second : Json) : Bool := !strict_eq first second

/-- `js_op::abstract_ne`. -/
def abstract_ne (first second : Json) : Bool := !abstract_eq first second

/-- `js_op::abstract_lt`: JS-style abstract less-than. -/
def abstract_lt (first second : Json) : Bool :=
  match toPrimitiveHintNumber first, toPrimitiveHintNumber second with
  | .str f, .str s => decide (f < s)
  | .num f, .num s => decide (f < s)
  | .str f, .num s =>
    match strToNumber f with
    | some fq => decide (fq < s)
    | none => false
  | .num f, .str s =>
    match strToNumber s with
    | some sq => decide (f < sq)
    | none => false

/-- `js_op::abstract_gt`: JS-style abstract greater-than. -/
def abstract_gt (first second : Json) : Bool :=
  match toPrimitiveHintNumber first, toPrimitiveHintNumber second with
  | .str f, .str s => decide (s < f)
  | .num f, .num s => decide (s < f)
  | .str f, .num s =>
    match strToNumber f with
    | some fq => decide (s < fq)
    | none => false
  | .num f, .str s =>
    match strToNumber s with
    | some sq => decide (sq < f)
    | none => false

/-- `js_op::abstract_lte`: `abstract_lt || abstract_eq`. -/
def abstract_lte (first second : Json) : Bool :=
  abstract_lt first second || abstract_eq first second

/-- `js_op::abstract_gte`: `abstract_gt || abstract_eq`. -/
def abstract_gte (first second : Json) : Bool :=
  abstract_gt first second || abstract_eq first second

/-- `op::NumParams`: the arity constraint of an operator
(`Variadic lo hi` is the half-open range `[lo, hi)`). -/
inductive NumParams where
  | none
  | any
  | unary
  | exactly (n : Nat)
  | atLeast (n : Nat)
  | variadic (lo hi : Nat)
deriving Repr, DecidableEq

/-- `error::Error`: the library's error taxonomy, plus `outOfFuel`, the
artifact of the fuel-indexed evaluator model. -/
inductive Error where
  | invalidData (value : Json) (reason : String)
  | invalidOperErr (key : String) (reason : String)
  | invalidVariable (value : Json) (reason : String)
  | invalidVariableKey (value : Json) (reason : String)
  | invalidArgument (value : Json) (operation : String) (reason : String)
  | invalidVarMap (value : Json)
  | unexpectedError (msg : String)
  | wrongArgumentCount (expected : NumParams) (actual : Nat)
  | outOfFuel

/-- `NumParams::is_valid_len`. -/
def NumParams.isValidLen : NumParams → Nat → Bool
  | .none, len => len == 0
  | .any, _ => true
  | .unary, len => len == 1
  | .atLeast n, len => decide (n ≤ len)
  | .exactly n, len => len == n
  | .variadic lo hi, len => decide (lo ≤ len) && decide (len < hi)

/-- `NumParams::can_accept_unary`.  Note the source's `AtLeast` arm is
literally `num >= &1`, i.e. the bound is at least one — not that one
meets the bound. -/
def NumParams.canAcceptUnary : NumParams → Bool
  | .none => false
  | .any => true
  | .unary => true
  | .atLeast n => decide (1 ≤ n)
  | .exactly n => n == 1
  | .variadic lo hi => decide (lo ≤ 1) && decide (1 < hi)

/-- `js_op::to_number` lifted over a fold step of `abstract_max`:
convert, or fail with the source's `InvalidArgument` (whose `operation`
field is `"max"` in both the max and the min fold — a quirk kept from
the source). -/
def toNumberOrMaxErr (v : Json) : Except Error Rat :=
  match toNumber v with
  | some q => .ok q
  | Option.none =>
    .error (.invalidArgument v "max" "Could not convert value to number")

/-- `js_op::abstract_max`: fold `to_number` over the items starting from
`-inf`, keeping the larger value. -/
def abstract_max (items : List Json) : Except Error JsNum :=
  items.foldl
    (fun acc v => do
      let mx ← acc
      let q ← toNumberOrMaxErr v
      if JsNum.gtB (.finite q) mx then pure (.finite q) else pure mx)
    (.ok .negInf)

/-- `js_op::abstract_min`: fold `to_number` over the items starting from
`+inf`, keeping the smaller value. -/
def abstract_min (items : List Json) : Except Error JsNum :=
  items.foldl
    (fun acc v => do
      let mn ← acc
      let q ← toNumberOrMaxErr v
      if JsNum.ltB (.finite q) mn then pure (.finite q) else pure mn)
    (.ok .posInf)

/-- The `NUMERICS` character set of `js_op.rs` (characters `parseFloat`
may accumulate). -/
def numericsChars : List Char :=
  ['0', '1', '2', '3', '4', '5', '6', '7', '8', '9', '0', '.', '-', '+', 'e', 'E']

/-- The accumulator step of `js_op::parse_float_string`'s fold over the
trimmed characters: `(acc, broke, saw_decimal)`. -/
def parseFloatStep (st : List Char × Bool × Bool) (c : Char) :
    List Char × Bool × Bool :=
  let (acc, broke, sawDecimal) := st
  if broke then (acc, broke, sawDecimal)
  else if numericsChars.contains c then
    let isDecimal := c == '.'
    if sawDecimal && isDecimal then (acc, true, isDecimal)
    else (acc ++ [c], broke, sawDecimal || isDecimal)
  else (acc, true, sawDecimal)

/-- `js_op::parse_float_string`: JS `parseFloat` on a string — trim,
accumulate the leading potentially-numeric characters, drop one trailing
`e`/`E`, then parse as a double. -/
def parseFloatString (s : String) : Option Rat :=
  let (leadingNumerics, _, _) :=
    s.trim.data.foldl parseFloatStep (([] : List Char), false, false)
  if leadingNumerics.length == 0 then Option.none
  else
    let leadingNumerics :=
      match leadingNumerics.getLast? with
      | some 'e' => leadingNumerics.dropLast
      | some 'E' => leadingNumerics.dropLast
      | _ => leadingNumerics
    parseF64 (String.mk leadingNumerics)

/-- `js_op::parse_float`: JS `parseFloat` on a value (non-numbers go
through `to_string` first). -/
def parseFloat (v : Json) : Option Rat :=
  match v with
  | .num q => some q
  | .str s => parseFloatString s
  | other => parseFloatString (jsToString other)

/-- `js_op::parse_float_add`: sum of `parse_float` over the arguments; a
single non-parseable argument fails the whole fold. -/
def parse_float_add (vals : List Json) : Except Error Rat :=
  vals.foldl
    (fun acc v => do
      let total ← acc
      match parseFloat v with
      | some q => pure (total + q)
      | Option.none =>
        .error (.invalidArgument v "+" "Argument could not be converted to a float"))
    (.ok 0)

/-- `js_op::parse_float_mul`: product of `parse_float` over the
arguments. -/
def parse_float_mul (vals : List Json) : Except Error Rat :=
  vals.foldl
    (fun acc v => do
      let total ← acc
      match parseFloat v with
      | some q => pure (total * q)
      | Option.none =>
        .error (.invalidArgument v "*" "Argument could not be converted to a float"))
    (.ok 1)

/-- `js_op::abstract_minus` (exact double subtraction). -/
def abstract_minus (first second : Json) : Except Error Rat :=
  match toNumber first with
  | Option.none =>
    .error (.invalidArgument first "-" "Could not convert value to number.")
  | some f =>
    match toNumber second with
    | Option.none =>
      .error (.invalidArgument second "-" "Could not convert value to number.")
    | some s => .ok (f - s)

/-- IEEE division of exact finite doubles: a zero divisor yields a
non-finite value whose sign follows the dividend (`x/0 = ±inf`,
`0/0 = NaN`; the negative-zero divisor is idealized away). -/
def divJsNum (f s : Rat) : JsNum :=
  if s = 0 then (if 0 < f then .posInf else if f < 0 then .negInf else .nan)
  else .finite (f / s)

/-- `js_op::abstract_div`. -/
def abstract_div (first second : Json) : Except Error JsNum :=
  match toNumber first with
  | Option.none =>
    .error (.invalidArgument first "/" "Could not convert value to number.")
  | some f =>
    match toNumber second with
    | Option.none =>
      .error (.invalidArgument second "/" "Could not convert value to number.")
    | some s => .ok (divJsNum f s)

/-- Truncation of a rational toward zero (Rust `f64` `%` truncates). -/
def ratTrunc (q : Rat) : Int :=
  if 0 ≤ q then Int.floor q else -(Int.floor (-q))

/-- IEEE `%` (`fmod`) of exact finite doubles: remainder with the sign
of the dividend; a zero divisor yields NaN. -/
def modJsNum (f s : Rat) : JsNum :=
  if s = 0 then .nan else .finite (f - s * (ratTrunc (f / s) : Rat))

/-- `js_op::abstract_mod`. -/
def abstract_mod (first second : Json) : Except Error JsNum :=
  match toNumber first with
  | Option.none =>
    .error (.invalidArgument first "%" "Could not convert value to number.")
  | some f =>
    match toNumber second with
    | Option.none =>
      .error (.invalidArgument second "%" "Could not convert value to number.")
    | some s => .ok (modJsNum f s)

/-- `js_op::to_negative`. -/
def to_negative (v : Json) : Except Error Rat :=
  match toNumber v with
  | some q => .ok (-1 * q)
  | Option.none =>
    .error (.invalidArgument v "to_negative" "Could not convert value to a number")

/-- `i64::MAX` as a rational. -/
def i64MaxQ : Rat := 9223372036854775807

/-- `i64::MIN` as a rational. -/
def i64MinQ : Rat := -9223372036854775808

/-- Rust's `f64 as i64` cast on a whole-valued double: saturating at the
`i64` bounds. -/
def f64AsI64Sat (q : Rat) : Rat :=
  if i64MaxQ < q then i64MaxQ else if q < i64MinQ then i64MinQ else q

/-- `value::to_number_value`: a whole double (`fract() == 0.0`) becomes
an integer JSON number through the saturating `as i64` cast; any other
finite double becomes a float JSON number; a non-finite double (whose
`fract()` is NaN, never zero) fails `Number::from_f64` and errors. -/
def to_number_value (n : JsNum) : Except Error Json :=
  match n with
  | .finite q =>
    if q.den = 1 then .ok (.num (f64AsI64Sat q)) else .ok (.num q)
  | _ =>
    .error (.unexpectedError "Could not make JSON number from result")

/-- `op::logic::truthy`: JsonLogic truthiness. -/
def truthy : Json → Bool
  | .null => false
  | .bool v => v
  | .num v => !(v == 0)
  | .str v => !(v == "")
  | .arr v => !(v.length == 0)
  | .obj _ => true

/-- `op::string::cat`: stringify each argument and concatenate. -/
def catOp (items : List Json) : Except Error Json :=
  .ok (.str (items.foldl
    (fun acc i =>
      acc ++ (match i with
              | .str s => s
              | other => jsToString other))
    ""))

/-- Extract an `i64` index argument for `substr` (serde `as_i64`:
an integer-stored number within the `i64` range). -/
def substrIndexArg (v : Json) (which : String) : Except Error Int :=
  match v with
  | .num n =>
    if n.den = 1 ∧ i64MinQ ≤ n ∧ n ≤ i64MaxQ then .ok n.num
    else .error (.invalidArgument (.num n) "substr"
      (which ++ " argument to substr must be an integer"))
  | other =>
    .error (.invalidArgument other "substr"
      (which ++ " argument to substr must be a number"))

/-- `op::string::substr`.  Faithfully to the source, `string_len` is the
UTF-8 **byte** length (`String::len`) while the final extraction walks
**characters** (`chars().skip(start).take(count)`).  The
`usize: TryFrom<i64>` overflow arm of the source is unreachable on a
64-bit host and is not modelled. -/
def substrOp (items : List Json) : Except Error Json := do
  match items with
  | stringArg :: idxArg :: restArgs =>
    let s ← match stringArg with
      | .str s => pure s
      | other => throw (.invalidArgument other "substr"
          "First argument to substr must be a string")
    let idx ← substrIndexArg idxArg "Second"
    let limit ← match restArgs with
      | [] => pure (Option.none : Option Int)
      | l :: _ => do
        let i ← substrIndexArg l "Optional third"
        pure (some i)
    let stringLen := s.utf8ByteSize
    let idxAbs : Nat := idx.natAbs
    let startIdx : Nat :=
      if idx < 0 then stringLen - idxAbs else min stringLen idxAbs
    let endIdx : Nat :=
      match limit with
      | Option.none => stringLen
      | some l =>
        let limitAbs : Nat := l.natAbs
        if l < 0 then stringLen - limitAbs
        else min stringLen (startIdx + limitAbs)
    let countInSubstr := endIdx - startIdx
    pure (.str (String.mk ((s.data.drop startIdx).take countInSubstr)))
  | _ => throw (.unexpectedError "substr: wrong argument count")

/-- `op::array::merge`: flatten the arguments by one level. -/
def mergeOp (items : List Json) : Except Error Json :=
  .ok (.arr (items.foldl
    (fun acc i =>
      match i with
      | .arr ivals => acc ++ ivals
      | other => acc ++ [other])
    []))

/-- `op::array::in_`: containment check (deep value equality for array
haystacks, substring containment for string haystacks). -/
def inOp (items : List Json) : Except Error Json :=
  match items with
  | [needle, haystack] =>
    match haystack with
    | .null => .ok (.bool false)
    | .arr possibles => .ok (.bool (possibles.contains needle))
    | .str haystackString =>
      match needle with
      | .str needleString =>
        .ok (.bool (haystackString.containsSubstr needleString))
      | other =>
        .error (.invalidArgument other "in"
          "If second argument is a string, first argument must also be a string.")
    | other =>
      .error (.invalidArgument other "in"
        "Second argument must be an array or a string")
  | _ => .error (.unexpectedError "in: wrong argument count")

/-- `op::data::KeyType`: the valid types of variable keys. -/
inductive KeyType where
  | nullKey
  | strKey (s : String)
  | numKey (i : Int)
deriving Repr, DecidableEq

/-- `TryFrom<&Value> for KeyType`: strings, (integer-stored, in-range)
numbers, or null. -/
def keyTypeOf : Json → Except Error KeyType
  | .null => .ok .nullKey
  | .str s => .ok (.strKey s)
  | .num n =>
    if n.den = 1 ∧ i64MinQ ≤ n ∧ n ≤ i64MaxQ then .ok (.numKey n.num)
    else .error (.invalidVariableKey (.num n) "Numeric keys must be valid integers")
  | other =>
    .error (.invalidVariableKey other
      "Variable keys must be strings, integers, or null")

/-- `op::data::get`: list indexing that supports negative (from-the-end)
indices; out of range yields `none`. -/
def listGet {α : Type} (xs : List α) (idx : Int) : Option α :=
  let usizeIdx := idx.natAbs
  if 0 ≤ idx then xs.get? usizeIdx
  else if usizeIdx ≤ xs.length then xs.get? (xs.length - usizeIdx)
  else Option.none

/-- Rust `str::parse::<i64>`: optional sign then decimal digits, within
the `i64` range. -/
def strToI64 (s : String) : Option Int :=
  let cs := s.data
  let (neg, cs) :=
    match cs with
    | '-' :: r => (true, r)
    | '+' :: r => (false, r)
    | _ => (false, cs)
  if cs.isEmpty || !cs.all Char.isDigit then Option.none
  else
    let v : Int := if neg then -(digitsToNat cs : Int) else (digitsToNat cs : Int)
    if i64MinQ ≤ (v : Rat) ∧ (v : Rat) ≤ i64MaxQ then some v else Option.none

/-- Lookup of a key in a JSON object (`serde_json::Map::get`). -/
def objGet (kvs : List (String × Json)) (k : String) : Option Json :=
  (kvs.find? (fun p => p.1 == k)).map Prod.snd

/-- Rust `str::split('.')`: split the character list at every `'.'`
(adjacent separators yield empty segments). -/
def splitDotAux : List Char → List Char → List String
  | [], acc => [String.mk acc.reverse]
  | c :: rest, acc =>
    if c = '.' then String.mk acc.reverse :: splitDotAux rest []
    else splitDotAux rest (c :: acc)

/-- `k.split(".")` as used by `get_str_key`. -/
def splitDot (s : String) : List String := splitDotAux s.data []

/-- One step of `op::data::get_str_key`'s fold over the dotted path
segments. -/
def getStrKeyStep (acc : Option Json) (seg : String) : Option Json :=
  match acc with
  | Option.none => Option.none
  | some cur =>
    match cur with
    | .obj kvs => objGet kvs seg
    | .arr xs => (strToI64 seg).bind (fun i => listGet xs i)
    | .str s =>
      (strToI64 seg).bind (fun i =>
        (listGet s.data i).map (fun c => .str (String.mk [c])))
    | _ => Option.none

/-- `op::data::get_str_key`: empty key returns the data; otherwise fold
the dot-separated path over objects / arrays / strings. -/
def getStrKey (data : Json) (k : String) : Option Json :=
  if k = "" then some data
  else
    match data with
    | .obj _ | .arr _ | .str _ =>
      (splitDot k).foldl getStrKeyStep (some data)
    | _ => Option.none

/-- `op::data::get_key`: resolve a parsed key against the data. -/
def getKey (data : Json) (key : KeyType) : Option Json :=
  match key with
  | .nullKey => some data
  | .strKey k => getStrKey data k
  | .numKey i =>
    match data with
    | .obj _ => getStrKey data (toString i)
    | .arr xs => listGet xs i
    | .str s => (listGet s.data i).map (fun c => .str (String.mk [c]))
    | _ => Option.none

/-- The fold body of `op::data::missing`: skip null keys, record keys
whose lookup fails. -/
def missingFold (data : Json) : List Json → List Json → Except Error (List Json)
  | acc, [] => .ok acc
  | acc, arg :: rest => do
    let key ← keyTypeOf arg
    match key with
    | .nullKey => missingFold data acc rest
    | _ =>
      if (getKey data key).isNone then missingFold data (acc ++ [arg]) rest
      else missingFold data acc rest

/-- `op::data::missing`: list the keys absent from the data.  If the
first argument is itself an array, that array is the key list. -/
def missingOp (data : Json) (args : List Json) : Except Error Json := do
  let adjustedArgs :=
    match args with
    | .arr vals :: _ => vals
    | _ => args
  let missingKeys ← missingFold data [] adjustedArgs
  .ok (.arr missingKeys)

/-- The fold body of `op::data::missing_some`: stop work once the
threshold is met; otherwise a key counts as present when its lookup
succeeds **or** when it duplicates an already-recorded missing key (the
`!missing_keys.contains(key)` conjunct of the source lands such keys in
the `+ 1` arm). -/
def missingSomeFold (data : Json) (threshold : Nat) :
    Nat → List Json → List Json → Except Error (Nat × List Json)
  | presentCount, missingKeys, [] => .ok (presentCount, missingKeys)
  | presentCount, missingKeys, key :: rest =>
    if threshold ≤ presentCount then .ok (presentCount, missingKeys)
    else do
      let parsedKey ← keyTypeOf key
      match parsedKey with
      | .nullKey => missingSomeFold data threshold presentCount missingKeys rest
      | _ =>
        if (getKey data parsedKey).isNone && !missingKeys.contains key then
          missingSomeFold data threshold presentCount (missingKeys ++ [key]) rest
        else
          missingSomeFold data threshold (presentCount + 1) missingKeys rest

/-- `op::data::missing_some`: threshold-based missing check. -/
def missingSomeOp (data : Json) (args : List Json) : Except Error Json := do
  match args with
  | [thresholdArg, keysArg] =>
    let threshold ← match thresholdArg with
      | .num n =>
        if n.den = 1 ∧ 0 ≤ n ∧ n ≤ ((18446744073709551615 : Rat)) then
          pure n.num.toNat
        else
          throw (.invalidArgument thresholdArg "missing_some"
            "missing_some threshold must be a valid, positive integer")
      | _ =>
        throw (.invalidArgument thresholdArg "missing_some"
          "missing_some threshold must be a valid, positive integer")
    let keys ← match keysArg with
      | .arr keys => pure keys
      | other =>
        throw (.invalidArgument other "missig_some"
          "missing_some keys must be an array")
    let (presentCount, missingKeys) ← missingSomeFold data threshold 0 [] keys
    if threshold ≤ presentCount then .ok (.arr [])
    else .ok (.arr missingKeys)
  | _ => throw (.unexpectedError "missing_some: wrong argument count")

/-- `op::OPERATOR_MAP`: the eager operator table (symbol and arity; the
function bodies are dispatched by `evalEager`). -/
def eagerOps : List (String × NumParams) :=
  [("==", .exactly 2), ("!=", .exactly 2), ("===", .exactly 2), ("!==", .exactly 2),
   ("!", .unary), ("!!", .unary),
   ("<", .variadic 2 4), ("<=", .variadic 2 4), (">", .variadic 2 4), (">=", .variadic 2 4),
   ("+", .any), ("-", .variadic 1 3), ("*", .atLeast 1), ("/", .exactly 2),
   ("%", .exactly 2), ("max", .atLeast 1), ("min", .atLeast 1),
   ("merge", .any), ("in", .exactly 2), ("cat", .any), ("substr", .variadic 2 4),
   ("log", .unary)]

/-- `op::DATA_OPERATOR_MAP`: the data operator table. -/
def dataOps : List (String × NumParams) :=
  [("var", .variadic 0 3), ("missing", .any), ("missing_some", .exactly 2)]

/-- `op::LAZY_OPERATOR_MAP`: the lazy operator table. -/
def lazyOps : List (String × NumParams) :=
  [("if", .any), ("?:", .any), ("or", .atLeast 1), ("and", .atLeast 1),
   ("map", .exactly 2), ("filter", .exactly 2), ("reduce", .exactly 3),
   ("all", .exactly 2), ("some", .exactly 2), ("none", .exactly 2)]

/-- Registry lookup in the parser's classification order (eager, then
lazy, then data; the three tables are key-disjoint). -/
def lookupOperator (k : String) : Option NumParams :=
  match eagerOps.lookup k with
  | some np => some np
  | Option.none =>
    match lazyOps.lookup k with
    | some np => some np
    | Option.none => dataOps.lookup k

/-- Whether a value is classified as an operation by the parser: an
object with exactly one key that is a registered operator symbol. -/
def isOperationObject : Json → Bool
  | .obj [(k, _)] => (lookupOperator k).isSome
  | _ => false

/-- `value::Parsed`: the parsed tree.  Eager and data operations carry
recursively parsed arguments; lazy operations keep raw JSON arguments. -/
inductive ParsedT where
  | raw (v : Json)
  | eagerOp (sym : String) (args : List ParsedT)
  | lazyOp (sym : String) (args : List Json)
  | dataOp (sym : String) (args : List ParsedT)

mutual

/-- `value::Parsed::from_value` together with `op::op_from_map`:
classify a JSON node (eager operation, lazy operation, data operation,
or raw), extracting and arity-checking the argument list.  A non-array
argument value is accepted as a one-element list exactly when the
operator `can_accept_unary`. -/
def parse (v : Json) : Except Error ParsedT :=
  match v with
  | .obj [(k, val)] =>
    match eagerOps.lookup k with
    | some np =>
      match val with
      | .arr xs =>
        if np.isValidLen xs.length then
          (parseList xs).map (fun ps => .eagerOp k ps)
        else .error (.wrongArgumentCount np xs.length)
      | scalarVal =>
        if np.canAcceptUnary then
          if np.isValidLen 1 then (parse scalarVal).map (fun p => .eagerOp k [p])
          else .error (.wrongArgumentCount np 1)
        else .error (.invalidOperErr k
          "Arguments to non-unary operations must be arrays")
    | Option.none =>
      match lazyOps.lookup k with
      | some np =>
        match val with
        | .arr xs =>
          if np.isValidLen xs.length then .ok (.lazyOp k xs)
          else .error (.wrongArgumentCount np xs.length)
        | _ =>
          if np.canAcceptUnary then
            if np.isValidLen 1 then .ok (.lazyOp k [val])
            else .error (.wrongArgumentCount np 1)
          else .error (.invalidOperErr k
            "Arguments to non-unary operations must be arrays")
      | Option.none =>
        match dataOps.lookup k with
        | some np =>
          match val with
          | .arr xs =>
            if np.isValidLen xs.length then
              (parseList xs).map (fun ps => .dataOp k ps)
            else .error (.wrongArgumentCount np xs.length)
          | dataScalar =>
            if np.canAcceptUnary then
              if np.isValidLen 1 then
                (parse dataScalar).map (fun p => .dataOp k [p])
              else .error (.wrongArgumentCount np 1)
            else .error (.invalidOperErr k
              "Arguments to non-unary operations must be arrays")
        | Option.none => .ok (.raw v)
  | _ => .ok (.raw v)
termination_by sizeOf v
decreasing_by all_goals (simp; omega)

/-- Recursive parsing of an eager operation's argument list
(`value::Parsed::from_values`). -/
def parseList : List Json → Except Error (List ParsedT)
  | [] => .ok []
  | x :: rest => do
    let p ← parse x
    let ps ← parseList rest
    .ok (p :: ps)
termination_by xs => sizeOf xs
decreasing_by all_goals (simp; try omega)

end

/-- `op::numeric::compare`: 2 arguments compare directly; otherwise the
chained form `cmp(a,b) && cmp(b,c)` over the first three. -/
def compareOp (f : Json → Json → Bool) (items : List Json) :
    Except Error Json :=
  match items with
  | [a, b] => .ok (.bool (f a b))
  | a :: b :: c :: _ => .ok (.bool (f a b && f b c))
  | _ => .error (.unexpectedError "compare: wrong argument count")

/-- `op::numeric::minus`: unary negation or binary subtraction, packed
back into a JSON number. -/
def minusOp (items : List Json) : Except Error Json := do
  let value ← match items with
    | [a] => to_negative a
    | a :: b :: _ => abstract_minus a b
    | _ => throw (.unexpectedError "minus: wrong argument count")
  to_number_value (.finite value)

/-- Dispatch of the eager operator bodies (`op::OPERATOR_MAP`'s function
pointers).  Argument counts were validated at parse time; the
"wrong argument count" arms are unreachable (they model the Rust
closures' panicking index expressions).  `log`'s `println!` side effect
is dropped. -/
def evalEager (sym : String) (items : List Json) : Except Error Json :=
  match sym with
  | "==" =>
    match items with
    | [a, b] => .ok (.bool (abstract_eq a b))
    | _ => .error (.unexpectedError "==: wrong argument count")
  | "!=" =>
    match items with
    | [a, b] => .ok (.bool (abstract_ne a b))
    | _ => .error (.unexpectedError "!=: wrong argument count")
  | "===" =>
    match items with
    | [a, b] => .ok (.bool (strict_eq a b))
    | _ => .error (.unexpectedError "===: wrong argument count")
  | "!==" =>
    match items with
    | [a, b] => .ok (.bool (strict_ne a b))
    | _ => .error (.unexpectedError "!==: wrong argument count")
  | "!" =>
    match items with
    | a :: _ => .ok (.bool (!truthy a))
    | _ => .error (.unexpectedError "!: wrong argument count")
  | "!!" =>
    match items with
    | a :: _ => .ok (.bool (truthy a))
    | _ => .error (.unexpectedError "!!: wrong argument count")
  | "<" => compareOp abstract_lt items
  | "<=" => compareOp abstract_lte items
  | ">" => compareOp abstract_gt items
  | ">=" => compareOp abstract_gte items
  | "+" => parse_float_add items >>= (fun q => to_number_value (.finite q))
  | "-" => minusOp items
  | "*" => parse_float_mul items >>= (fun q => to_number_value (.finite q))
  | "/" =>
    match items with
    | [a, b] => abstract_div a b >>= to_number_value
    | _ => .error (.unexpectedError "/: wrong argument count")
  | "%" =>
    match items with
    | [a, b] => abstract_mod a b >>= to_number_value
    | _ => .error (.unexpectedError "%: wrong argument count")
  | "max" => abstract_max items >>= to_number_value
  | "min" => abstract_min items >>= to_number_value
  | "merge" => mergeOp items
  | "in" => inOp items
  | "cat" => catOp items
  | "substr" => substrOp items
  | "log" =>
    match items with
    | a :: _ => .ok a
    | _ => .error (.unexpectedError "log: wrong argument count")
  | _ => .error (.unexpectedError "unknown eager operator")

/-- The accumulator of `op::logic::or`'s fold (`OrResult`). -/
inductive OrAcc where
  | uninit
  | truthyV (v : Json)
  | currentV (v : Json)

/-- The accumulator of `op::logic::and`'s fold (`AndResult`). -/
inductive AndAcc where
  | uninit
  | falseyV (v : Json)
  | currentV (v : Json)

set_option maxHeartbeats 2000000 in
mutual

/-- The evaluator (`value::Parsed::evaluate` / the `evaluate` methods of
`Operation`, `LazyOperation` and `DataOperation`).  `fuel` bounds the
non-structural recursion through re-parsed computed values; every
evaluation step consumes one unit. -/
def eval (fuel : Nat) (p : ParsedT) (data : Json) : Except Error Json :=
  match fuel with
  | 0 => .error .outOfFuel
  | m + 1 =>
    match p with
    | .raw v => .ok v
    | .eagerOp sym args => do
      let vals ← evalArgs m args data
      evalEager sym vals
    | .lazyOp sym args => evalLazy m sym args data
    | .dataOp sym args => do
      let vals ← evalArgs m args data
      evalData m sym vals data
termination_by (fuel, 0, 0)

/-- Eager evaluation of a parsed argument list, left to right. -/
def evalArgs (fuel : Nat) (args : List ParsedT) (data : Json) :
    Except Error (List Json) :=
  match args with
  | [] => .ok []
  | a :: rest => do
    let v ← eval fuel a data
    let vs ← evalArgs fuel rest data
    .ok (v :: vs)
termination_by (fuel, 1, args.length)

/-- Dispatch of the lazy operator bodies (`op::LAZY_OPERATOR_MAP`). -/
def evalLazy (fuel : Nat) (sym : String) (args : List Json) (data : Json) :
    Except Error Json :=
  match sym with
  | "if" => evalIf fuel args data
  | "?:" => evalIf fuel args data
  | "or" => evalOr fuel args data
  | "and" => evalAnd fuel args data
  | "map" => evalMap fuel args data
  | "filter" => evalFilter fuel args data
  | "reduce" => evalReduce fuel args data
  | "all" => evalAll fuel args data
  | "some" => evalSome fuel args data
  | "none" => evalNone fuel args data
  | _ => .error (.unexpectedError "unknown lazy operator")
termination_by (fuel, 4, 0)

/-- Dispatch of the data operator bodies (`op::DATA_OPERATOR_MAP`); the
argument values have already been evaluated eagerly. -/
def evalData (fuel : Nat) (sym : String) (vals : List Json) (data : Json) :
    Except Error Json :=
  match sym with
  | "var" => evalVar fuel vals data
  | "missing" => missingOp data vals
  | "missing_some" => missingSomeOp data vals
  | _ => .error (.unexpectedError "unknown data operator")
termination_by (fuel, 4, 0)

/-- `op::data::var`: key lookup with a (re-parsed and re-evaluated)
default.  Like the source's eager `unwrap_or`, the default argument is
evaluated even when the lookup succeeds. -/
def evalVar (fuel : Nat) (args : List Json) (data : Json) :
    Except Error Json :=
  match args with
  | [] => .ok data
  | keyArg :: rest => do
    let key ← keyTypeOf keyArg
    let val := getKey data key
    let defaultVal ← match rest with
      | [] => pure Json.null
      | d :: _ => do
        let p ← parse d
        eval fuel p data
    .ok (val.getD defaultVal)
termination_by (fuel, 3, 0)

/-- `op::logic::if_`: zero arguments yield null, a single argument is
evaluated and returned, otherwise fold condition/value pairs. -/
def evalIf (fuel : Nat) (args : List Json) (data : Json) :
    Except Error Json :=
  match args with
  | [] => .ok .null
  | [single] => do
    let p ← parse single
    eval fuel p data
  | _ => do
    let r ← evalIfFold fuel args 0 (Json.null, false, false) data
    .ok r.1
termination_by (fuel, 3, 0)

/-- The enumerate-fold of `op::logic::if_`, carrying
`(last_eval, was_truthy, should_return)`. -/
def evalIfFold (fuel : Nat) (args : List Json) (i : Nat)
    (acc : Json × Bool × Bool) (data : Json) :
    Except Error (Json × Bool × Bool) :=
  match args with
  | [] => .ok acc
  | val :: rest =>
    let (_, wasTruthy, shouldReturn) := acc
    if shouldReturn then evalIfFold fuel rest (i + 1) acc data
    else if i % 2 == 0 then do
      let p ← parse val
      let ev ← eval fuel p data
      evalIfFold fuel rest (i + 1) (ev, truthy ev, false) data
    else if wasTruthy then do
      let p ← parse val
      let ev ← eval fuel p data
      evalIfFold fuel rest (i + 1) (ev, true, true) data
    else evalIfFold fuel rest (i + 1) (Json.null, wasTruthy, shouldReturn) data
termination_by (fuel, 2, args.length)

/-- `op::logic::or`: the fold result, unpacked. -/
def evalOr (fuel : Nat) (args : List Json) (data : Json) :
    Except Error Json := do
  let r ← evalOrFold fuel args data .uninit
  match r with
  | .truthyV v => .ok v
  | .currentV v => .ok v
  | .uninit =>
    .error (.unexpectedError "Or operation had no values to operate on")
termination_by (fuel, 3, 0)

/-- The fold of `op::logic::or`: once a truthy value is found, later
arguments are neither parsed nor evaluated. -/
def evalOrFold (fuel : Nat) (args : List Json) (data : Json) (acc : OrAcc) :
    Except Error OrAcc :=
  match args with
  | [] => .ok acc
  | current :: rest =>
    match acc with
    | .truthyV v => evalOrFold fuel rest data (.truthyV v)
    | _ => do
      let p ← parse current
      let ev ← eval fuel p data
      if truthy ev then evalOrFold fuel rest data (.truthyV ev)
      else evalOrFold fuel rest data (.currentV ev)
termination_by (fuel, 2, args.length)

/-- `op::logic::and`: the fold result, unpacked. -/
def evalAnd (fuel : Nat) (args : List Json) (data : Json) :
    Except Error Json := do
  let r ← evalAndFold fuel args data .uninit
  match r with
  | .falseyV v => .ok v
  | .currentV v => .ok v
  | .uninit =>
    .error (.unexpectedError "And operation had no values to operate on")
termination_by (fuel, 3, 0)

/-- The fold of `op::logic::and`: once a falsey value is found, later
arguments are neither parsed nor evaluated. -/
def evalAndFold (fuel : Nat) (args : List Json) (data : Json) (acc : AndAcc) :
    Except Error AndAcc :=
  match args with
  | [] => .ok acc
  | current :: rest =>
    match acc with
    | .falseyV v => evalAndFold fuel rest data (.falseyV v)
    | _ => do
      let p ← parse current
      let ev ← eval fuel p data
      if !truthy ev then evalAndFold fuel rest data (.falseyV ev)
      else evalAndFold fuel rest data (.currentV ev)
termination_by (fuel, 2, args.length)

/-- `op::array::map`: evaluate the source against the outer data
(null is an empty array), then evaluate the expression with each
element as the data value. -/
def evalMap (fuel : Nat) (args : List Json) (data : Json) :
    Except Error Json :=
  match args with
  | [items, expression] => do
    let pitems ← parse items
    let evaluatedItems ← eval fuel pitems data
    let values ← match evaluatedItems with
      | .arr vals => pure vals
      | .null => pure ([] : List Json)
      | _ => throw (.invalidArgument items "map"
          "First argument to map must evaluate to an array.")
    let pexp ← parse expression
    let mapped ← evalMapList fuel pexp values
    .ok (.arr mapped)
  | _ => .error (.unexpectedError "map: wrong argument count")
termination_by (fuel, 3, 0)

/-- The per-element loop of `map`. -/
def evalMapList (fuel : Nat) (pexp : ParsedT) (vals : List Json) :
    Except Error (List Json) :=
  match vals with
  | [] => .ok []
  | v :: rest => do
    let r ← eval fuel pexp v
    let rs ← evalMapList fuel pexp rest
    .ok (r :: rs)
termination_by (fuel, 2, vals.length)

/-- `op::array::filter` (its `InvalidArgument` carries operation `"map"`,
kept from the source). -/
def evalFilter (fuel : Nat) (args : List Json) (data : Json) :
    Except Error Json :=
  match args with
  | [items, expression] => do
    let pitems ← parse items
    let evaluatedItems ← eval fuel pitems data
    let values ← match evaluatedItems with
      | .arr vals => pure vals
      | .null => pure ([] : List Json)
      | _ => throw (.invalidArgument items "map"
          "First argument to filter must evaluate to an array.")
    let pexp ← parse expression
    let kept ← evalFilterList fuel pexp values
    .ok (.arr kept)
  | _ => .error (.unexpectedError "filter: wrong argument count")
termination_by (fuel, 3, 0)

/-- The per-element loop of `filter`: keep the elements whose predicate
evaluates truthy. -/
def evalFilterList (fuel : Nat) (pexp : ParsedT) (vals : List Json) :
    Except Error (List Json) :=
  match vals with
  | [] => .ok []
  | cur :: rest => do
    let pr ← eval fuel pexp cur
    let rs ← evalFilterList fuel pexp rest
    if truthy pr then .ok (cur :: rs) else .ok rs
termination_by (fuel, 2, vals.length)

/-- `op::array::reduce`: fold the expression over the source with
`{"accumulator": …, "current": …}` as the data value (serde's map is
key-sorted, so `accumulator` precedes `current`). -/
def evalReduce (fuel : Nat) (args : List Json) (data : Json) :
    Except Error Json :=
  match args with
  | [items, expression, initializer] => do
    let pitems ← parse items
    let evaluatedItems ← eval fuel pitems data
    let pinit ← parse initializer
    let evaluatedInit ← eval fuel pinit data
    let values ← match evaluatedItems with
      | .arr vals => pure vals
      | .null => pure ([] : List Json)
      | _ => throw (.invalidArgument items "map"
          "First argument to filter must evaluate to an array.")
    let pexp ← parse expression
    evalReduceList fuel pexp values evaluatedInit
  | _ => .error (.unexpectedError "reduce: wrong argument count")
termination_by (fuel, 3, 0)

/-- The fold of `reduce`. -/
def evalReduceList (fuel : Nat) (pexp : ParsedT) (vals : List Json)
    (acc : Json) : Except Error Json :=
  match vals with
  | [] => .ok acc
  | cur :: rest => do
    let r ← eval fuel pexp (.obj [("accumulator", acc), ("current", cur)])
    evalReduceList fuel pexp rest r
termination_by (fuel, 2, vals.length)

/-- `op::array::all`: coerce the source (array / string-of-chars /
null); the empty source is `false`; otherwise every element must
satisfy the predicate. -/
def evalAll (fuel : Nat) (args : List Json) (data : Json) :
    Except Error Json :=
  match args with
  | [firstArg, secondArg] => do
    let potentiallyEvaled ← match firstArg with
      | .obj kvs => do
        let p ← parse (.obj kvs)
        eval fuel p data
      | other => pure other
    let items ← match potentiallyEvaled with
      | .arr items => pure items
      | .str s => pure (s.data.map (fun c => Json.str (String.mk [c])))
      | .null => pure ([] : List Json)
      | _ => throw (.invalidArgument firstArg "all"
          "First argument to all must evaluate to an array, string, or null")
    if items.length == 0 then .ok (.bool false)
    else do
      let predicate ← parse secondArg
      let result ← evalAllList fuel predicate items data
      .ok (.bool result)
  | _ => .error (.unexpectedError "all: wrong argument count")
termination_by (fuel, 3, 0)

/-- The short-circuiting element loop of `all`: each item is re-parsed,
re-evaluated against the outer data, and then fed to the predicate as
its data value. -/
def evalAllList (fuel : Nat) (predicate : ParsedT) (items : List Json)
    (data : Json) : Except Error Bool :=
  match items with
  | [] => .ok true
  | i :: rest => do
    let pitem ← parse i
    let evaluatedItem ← eval fuel pitem data
    let pr ← eval fuel predicate evaluatedItem
    if truthy pr then evalAllList fuel predicate rest data
    else .ok false
termination_by (fuel, 2, items.length)

/-- `op::array::some` (its `InvalidArgument` carries operation `"all"`,
kept from the source). -/
def evalSome (fuel : Nat) (args : List Json) (data : Json) :
    Except Error Json :=
  match args with
  | [firstArg, secondArg] => do
    let potentiallyEvaled ← match firstArg with
      | .obj kvs => do
        let p ← parse (.obj kvs)
        eval fuel p data
      | other => pure other
    let items ← match potentiallyEvaled with
      | .arr items => pure items
      | .str s => pure (s.data.map (fun c => Json.str (String.mk [c])))
      | .null => pure ([] : List Json)
      | _ => throw (.invalidArgument firstArg "all"
          "First argument must evaluate to an array, a string, or null")
    if items.length == 0 then .ok (.bool false)
    else do
      let predicate ← parse secondArg
      let result ← evalSomeList fuel predicate items data
      .ok (.bool result)
  | _ => .error (.unexpectedError "some: wrong argument count")
termination_by (fuel, 3, 0)

/-- The short-circuiting element loop of `some`. -/
def evalSomeList (fuel : Nat) (predicate : ParsedT) (items : List Json)
    (data : Json) : Except Error Bool :=
  match items with
  | [] => .ok false
  | i :: rest => do
    let pitem ← parse i
    let evaluatedItem ← eval fuel pitem data
    let pr ← eval fuel predicate evaluatedItem
    if truthy pr then .ok true
    else evalSomeList fuel predicate rest data
termination_by (fuel, 2, items.length)

/-- `op::array::none`: the negation of `some`. -/
def evalNone (fuel : Nat) (args : List Json) (data : Json) :
    Except Error Json := do
  let hadSome ← evalSome fuel args data
  match hadSome with
  | .bool res => .ok (.bool (!res))
  | _ => .error (.unexpectedError "Unexpected return type from op_some")
termination_by (fuel, 3, 1)

end

/-- `lib::apply`: parse the rule, then evaluate it against the data. -/
def apply (fuel : Nat) (rule data : Json) : Except Error Json := do
  let p ← parse rule
  eval fuel p data

/-- Whether a JSON value is an array. -/
def Json.isArr : Json → Bool
  | .arr _ => true
  | _ => false

/-- Spec-side definition, following the claim's words for `substr`:
indexing by Unicode scalar (character) positions — a negative start
counts characters from the end clamped to 0, a positive start is clamped
to the character length; a non-negative extent takes that many
characters clamped to the end, a negative extent stops that many
characters before the end.  Stated for comparison with `substrOp`. -/
def substrCharsSpec (s : String) (start : Int) (extent : Option Int) : String :=
  let charLen := s.length
  let startIdx : Nat :=
    if start < 0 then charLen - start.natAbs else min charLen start.natAbs
  let endIdx : Nat :=
    match extent with
    | Option.none => charLen
    | some e =>
      if e < 0 then charLen - e.natAbs else min charLen (startIdx + e.natAbs)
  String.mk ((s.data.drop startIdx).take (endIdx - startIdx))

/-- Spec-side definition, following the claim's words for
`missing_some`: the number of keys of the list that are present in the
data (a key is present when its `var`-style lookup succeeds).  Stated
for comparison with `missingSomeOp`. -/
def specPresentCount (data : Json) (keys : List Json) : Nat :=
  (keys.filter (fun k =>
    match keyTypeOf k with
    | .ok kt => (getKey data kt).isSome
    | .error _ => false)).length

/-- C1 (counterexample): the claim's rule — compare the two
number-hinted primitives with `<=` / `>=` — fails on the code at
`u = null`, `v = 0`: both primitives are the number 0 and `0 <= 0`
holds, yet `abstract_lte` and `abstract_gte` are false, because the
source defines them as `abstract_lt || abstract_eq` (resp. gt) and
`abstract_eq(null, 0)` is false. -/
theorem c1_lte_counterexample :
    toPrimitiveNumber Json.null = some 0 ∧
    toPrimitiveNumber (Json.num 0) = some 0 ∧
    ((0 : Rat) ≤ 0) ∧
    abstract_lte Json.null (Json.num 0) = false ∧
    abstract_gte Json.null (Json.num 0) = false := by
  refine ⟨rfl, rfl, le_refl 0, ?_, ?_⟩ <;>
    simp [abstract_lte, abstract_gte, abstract_lt, abstract_gt, abstract_eq,
      toPrimitiveHintNumber, toPrimitiveNumber]

/-- C1 (amended): `abstract_lt` and `abstract_gt` follow the claimed
rule — ToPrimitive with number hint on both sides, lexicographic
comparison when both primitives are strings, `str_to_number` coercion of
a remaining string with coercion failure yielding false — while
`abstract_lte` and `abstract_gte` are the disjunction of the strict
comparison with `abstract_eq` (not a `<=`/`>=` on the primitives). -/
theorem c1_comparison_rule (u v : Json) :
    abstract_lte u v = (abstract_lt u v || abstract_eq u v) ∧
    abstract_gte u v = (abstract_gt u v || abstract_eq u v) ∧
    (match toPrimitiveNumber u, toPrimitiveNumber v with
     | some f, some s =>
       abstract_lt u v = decide (f < s) ∧ abstract_gt u v = decide (s < f)
     | Option.none, Option.none =>
       abstract_lt u v = decide (jsToString u < jsToString v) ∧
       abstract_gt u v = decide (jsToString v < jsToString u)
     | Option.none, some s =>
       abstract_lt u v = (match strToNumber (jsToString u) with
                          | some fq => decide (fq < s)
                          | Option.none => false) ∧
       abstract_gt u v = (match strToNumber (jsToString u) with
                          | some fq => decide (s < fq)
                          | Option.none => false)
     | some f, Option.none =>
       abstract_lt u v = (match strToNumber (jsToString v) with
                          | some sq => decide (f < sq)
                          | Option.none => false) ∧
       abstract_gt u v = (match strToNumber (jsToString v) with
                          | some sq => decide (sq < f)
                          | Option.none => false)) := by
  refine ⟨rfl, rfl, ?_⟩
  rcases hu : toPrimitiveNumber u with _ | f <;>
    rcases hv : toPrimitiveNumber v with _ | s <;>
      simp [abstract_lt, abstract_gt, toPrimitiveHintNumber, hu, hv]

/-- C2 (code bug): `substr` computes its negative-start offset from the
UTF-8 byte length but extracts characters, so on the one-character
two-byte string `"é"` a start of `-1` yields `""` where character-based
indexing (the claim, and the source's own comments) yields `"é"`. -/
theorem c2_substr_byte_indexing_bug :
    substrOp [.str "é", .num (-1)] = .ok (.str "") ∧
    substrCharsSpec "é" (-1) Option.none = "é" ∧
    ("" : String) ≠ "é" :=
  ⟨rfl, rfl, by decide⟩

/-- C3 (code bug): `missing_some` counts a duplicate occurrence of an
already-recorded missing key as *present*, so with threshold 1, keys
`["a", "a"]` and empty data it reports the threshold met and returns
`[]`, although 0 of the keys are present in the data. -/
theorem c3_missing_some_duplicate_bug :
    missingSomeOp (.obj []) [.num 1, .arr [.str "a", .str "a"]] = .ok (.arr []) ∧
    specPresentCount (.obj []) [.str "a", .str "a"] = 0 ∧
    ¬ (1 ≤ 0) :=
  ⟨rfl, rfl, by decide⟩

/-- C4 (counterexample): `"+"` is registered with arity `Any` — not
unary — yet the rule `{"+": 1}` with a non-array scalar argument parses
(the scalar is wrapped as a one-element argument list, because
`can_accept_unary` holds for every arity constraint admitting length 1)
and evaluates to `1`. -/
theorem c4_nonunary_scalar_counterexample :
    List.lookup "+" eagerOps = some NumParams.any ∧
    NumParams.any ≠ NumParams.unary ∧
    parse (.obj [("+", .num 1)]) = .ok (.eagerOp "+" [.raw (.num 1)]) ∧
    apply 2 (.obj [("+", .num 1)]) (.obj []) = .ok (.num 1) := by
  refine ⟨rfl, by decide, ?_, ?_⟩
  · simp +decide [parse, parseList, eagerOps, lazyOps, dataOps, List.lookup,
      NumParams.canAcceptUnary, NumParams.isValidLen, Except.map]
  · simp +decide [apply, parse, parseList, eagerOps, lazyOps, dataOps,
      List.lookup, NumParams.canAcceptUnary, NumParams.isValidLen, eval,
      evalArgs, evalEager, parse_float_add, parseFloat, to_number_value,
      f64AsI64Sat, i64MaxQ, i64MinQ, bind, Except.bind, Except.map, pure,
      Except.pure]

/-- C4 (amended): an operator rejects a non-array argument value exactly
when its arity constraint cannot accept a single argument
(`can_accept_unary` false); when it can — which includes every unary
operator — `{"op": x}` and `{"op": [x]}` parse identically. -/
theorem c4_unary_wrapping (sym : String) (np : NumParams) (x : Json)
    (hreg : lookupOperator sym = some np) (hx : x.isArr = false) :
    (np.canAcceptUnary = false →
      parse (.obj [(sym, x)]) =
        .error (.invalidOperErr sym
          "Arguments to non-unary operations must be arrays")) ∧
    (np.canAcceptUnary = true →
      parse (.obj [(sym, x)]) = parse (.obj [(sym, .arr [x])])) := by
  have harr : ∀ xs, x = Json.arr xs → False := by
    intro xs hxx
    subst hxx
    simp [Json.isArr] at hx
  unfold lookupOperator at hreg
  rcases h1 : List.lookup sym eagerOps with _ | np1 <;> rw [h1] at hreg
  · rcases h2 : List.lookup sym lazyOps with _ | np2 <;> rw [h2] at hreg
    · rcases h3 : List.lookup sym dataOps with _ | np3 <;> rw [h3] at hreg
      · exact absurd hreg (by simp)
      · injection hreg with hnp
        subst hnp
        refine ⟨fun hcu => ?_, fun hcu => ?_⟩
        · cases x <;> first
            | exact absurd rfl (harr _)
            | simp [parse, h1, h2, h3, hcu]
        · cases x with
          | arr xs => exact absurd rfl (harr xs)
          | obj kvs =>
            rcases hpv : parse (Json.obj kvs) with e | p <;>
              simp [parse, parseList, h1, h2, h3, hcu, hpv,
                Except.map, bind, Except.bind]
          | _ =>
            simp [parse, parseList, h1, h2, h3, hcu,
              Except.map, bind, Except.bind]
    · injection hreg with hnp
      subst hnp
      refine ⟨fun hcu => ?_, fun hcu => ?_⟩
      · cases x <;> first
          | exact absurd rfl (harr _)
          | simp [parse, h1, h2, hcu]
      · cases x <;> first
          | exact absurd rfl (harr _)
          | simp [parse, h1, h2, hcu]
  · injection hreg with hnp
    subst hnp
    refine ⟨fun hcu => ?_, fun hcu => ?_⟩
    · cases x <;> first
        | exact absurd rfl (harr _)
        | simp [parse, h1, hcu]
    · cases x with
      | arr xs => exact absurd rfl (harr xs)
      | obj kvs =>
        rcases hpv : parse (Json.obj kvs) with e | p <;>
          simp [parse, parseList, h1, hcu, hpv, Except.map, bind, Except.bind]
      | _ =>
        simp [parse, parseList, h1, hcu, Except.map, bind, Except.bind]

/-- C4 (witness): `"<"` (arity 2..3) rejects the scalar argument form,
while the unary `"log"` parses `{"log": 1}` and `{"log": [1]}`
identically. -/
theorem c4_unary_wrapping_witness :
    parse (.obj [("<", .num 1)]) =
      .error (.invalidOperErr "<"
        "Arguments to non-unary operations must be arrays") ∧
    parse (.obj [("log", .num 1)]) = parse (.obj [("log", .arr [.num 1])]) :=
  ⟨(c4_unary_wrapping "<" (.variadic 2 4) (.num 1) rfl rfl).1 rfl,
   (c4_unary_wrapping "log" .unary (.num 1) rfl rfl).2 rfl⟩

/-- C5: any value that is not a single-key object whose key is a
registered operator symbol — in particular any object with zero keys or
at least two keys — parses as Raw and evaluates to itself unchanged,
for every data value. -/
theorem c5_raw_roundtrip (V data : Json) (m : Nat)
    (h : isOperationObject V = false) :
    apply (m + 1) V data = .ok V := by
  have hp : parse V = .ok (.raw V) := by
    cases V with
    | obj kvs =>
      match kvs with
      | [] => simp [parse]
      | [(k, val)] =>
        simp only [isOperationObject] at h
        unfold lookupOperator at h
        rcases h1 : List.lookup k eagerOps with _ | np1 <;> rw [h1] at h
        · rcases h2 : List.lookup k lazyOps with _ | np2 <;> rw [h2] at h
          · rcases h3 : List.lookup k dataOps with _ | np3 <;> rw [h3] at h
            · simp [parse, h1, h2, h3]
            · simp at h
          · simp at h
        · simp at h
      | (a :: b :: rest) => simp [parse]
    | _ => simp [parse]
  simp [apply, hp, eval, bind, Except.bind]

/-- C5 (witness): a two-key object — even one whose keys include an
operator symbol — evaluates to itself. -/
theorem c5_raw_roundtrip_witness :
    apply 1 (.obj [("+", .num 1), ("b", .num 2)]) (.obj [])
      = .ok (.obj [("+", .num 1), ("b", .num 2)]) :=
  c5_raw_roundtrip (.obj [("+", .num 1), ("b", .num 2)]) (.obj []) 0
    (by simp [isOperationObject])

/-- C6: `or` never parses or evaluates arguments past its first truthy
one, so `{"or": [true, E]}` evaluates to `true` for every sub-expression
`E` (including any `E` whose own parse or evaluation would error) and
every data value. -/
theorem c6_or_short_circuit (E data : Json) (m : Nat) :
    apply (m + 2) (.obj [("or", .arr [.bool true, E])]) data
      = .ok (.bool true) := by
  simp +decide [apply, parse, eagerOps, lazyOps, dataOps, List.lookup,
    NumParams.isValidLen, eval, evalLazy, evalOr, evalOrFold, truthy,
    bind, Except.bind]

/-- C7: for plain (non-operation) values a, b, c, the three-argument
comparison `{"<": [a,b,c]}` agrees with
`{"and": [{"<": [a,b]}, {"<": [b,c]}]}`; with three arguments the
comparison returns `cmp(a,b) && cmp(b,c)` and with two arguments just
`cmp(a,b)`. -/
theorem c7_chained_ordering (a b c data : Json) (m : Nat)
    (ha : parse a = .ok (.raw a)) (hb : parse b = .ok (.raw b))
    (hc : parse c = .ok (.raw c)) :
    (apply (m + 3) (.obj [("<", .arr [a, b, c])]) data
      = apply (m + 3) (.obj [("and", .arr
          [.obj [("<", .arr [a, b])], .obj [("<", .arr [b, c])]])]) data) ∧
    apply (m + 3) (.obj [("<", .arr [a, b, c])]) data
      = .ok (.bool (abstract_lt a b && abstract_lt b c)) ∧
    apply (m + 3) (.obj [("<", .arr [a, b])]) data
      = .ok (.bool (abstract_lt a b)) := by
  have h3 : apply (m + 3) (.obj [("<", .arr [a, b, c])]) data
      = .ok (.bool (abstract_lt a b && abstract_lt b c)) := by
    simp +decide [apply, parse, parseList, eagerOps, lazyOps, dataOps,
      List.lookup, NumParams.isValidLen, ha, hb, hc, eval, evalArgs,
      evalEager, compareOp, bind, Except.bind, Except.map]
  have h2 : apply (m + 3) (.obj [("<", .arr [a, b])]) data
      = .ok (.bool (abstract_lt a b)) := by
    simp +decide [apply, parse, parseList, eagerOps, lazyOps, dataOps,
      List.lookup, NumParams.isValidLen, ha, hb, eval, evalArgs,
      evalEager, compareOp, bind, Except.bind, Except.map]
  have hrhs : apply (m + 3) (.obj [("and", .arr
        [.obj [("<", .arr [a, b])], .obj [("<", .arr [b, c])]])]) data
      = .ok (.bool (abstract_lt a b && abstract_lt b c)) := by
    cases hab : abstract_lt a b <;> cases hbc : abstract_lt b c <;>
      simp +decide [apply, parse, parseList, eagerOps, lazyOps, dataOps,
        List.lookup, NumParams.isValidLen, ha, hb, hc, eval, evalArgs,
        evalEager, compareOp, evalLazy, evalAnd, evalAndFold, truthy,
        hab, hbc, bind, Except.bind, Except.map]
  exact ⟨h3.trans hrhs.symm, h3, h2⟩

/-- C7 (witness): the law at `1 < 2 < 3` over empty data. -/
theorem c7_chained_ordering_witness :
    apply 3 (.obj [("<", .arr [.num 1, .num 2, .num 3])]) (.obj [])
      = apply 3 (.obj [("and", .arr
          [.obj [("<", .arr [.num 1, .num 2])],
           .obj [("<", .arr [.num 2, .num 3])]])]) (.obj []) :=
  (c7_chained_ordering (.num 1) (.num 2) (.num 3) (.obj []) 0
    (by simp [parse]) (by simp [parse]) (by simp [parse])).1

/-- C8: the coercion-kernel folds have the infinities as identities —
`abstract_max []` is `-inf` and `abstract_min []` is `+inf` — but the
`max`/`min` operators are registered with arity `AtLeast 1`, so
`{"max": []}` fails the parse-time arity check and `apply` errors for
every data value (at any fuel): the identity semantics are not
exposed. -/
theorem c8_min_max_identities (data : Json) (fuel : Nat) :
    abstract_max [] = .ok .negInf ∧
    abstract_min [] = .ok .posInf ∧
    apply fuel (.obj [("max", .arr [])]) data
      = .error (.wrongArgumentCount (.atLeast 1) 0) := by
  refine ⟨rfl, rfl, ?_⟩
  simp +decide [apply, parse, eagerOps, lazyOps, dataOps, List.lookup,
    NumParams.isValidLen, bind, Except.bind]

/-- C9: when both division operands convert to numbers and the divisor
converts to zero, the IEEE quotient is non-finite (`±inf` or NaN), and
`to_number_value` refuses to build a JSON number from it, so
`{"/": [a, b]}` errors for every data value. -/
theorem c9_division_by_zero (a b data : Json) (m : Nat) (fa : Rat)
    (hpa : parse a = .ok (.raw a)) (hpb : parse b = .ok (.raw b))
    (ha : toNumber a = some fa) (hb : toNumber b = some 0) :
    apply (m + 2) (.obj [("/", .arr [a, b])]) data
      = .error (.unexpectedError "Could not make JSON number from result") := by
  have hdiv : abstract_div a b = .ok (divJsNum fa 0) := by
    simp [abstract_div, ha, hb]
  have hnv : to_number_value (divJsNum fa 0)
      = .error (.unexpectedError "Could not make JSON number from result") := by
    unfold divJsNum
    rcases lt_trichotomy (0 : Rat) fa with h | h | h
    · simp [h, to_number_value]
    · simp [h.symm, to_number_value]
    · simp [h, not_lt.mpr (le_of_lt h), to_number_value]
  simp +decide [apply, parse, parseList, eagerOps, lazyOps, dataOps,
    List.lookup, NumParams.isValidLen, hpa, hpb, eval, evalArgs, evalEager,
    hdiv, hnv, bind, Except.bind, Except.map]

/-- C9 (witness): `1 / 0` errors. -/
theorem c9_division_by_zero_witness :
    apply 2 (.obj [("/", .arr [.num 1, .num 0])]) (.obj [])
      = .error (.unexpectedError "Could not make JSON number from result") :=
  c9_division_by_zero (.num 1) (.num 0) (.obj []) 0 1
    (by simp [parse]) (by simp [parse]) rfl rfl

/-- The exact value `10 ^ 300`, as the model of the JSON literal
`1e300`. -/
def bigTenPow300 : Rat := 1000000000000000000000000000000000000000000000000000000000000000000000000000000000000000000000000000000000000000000000000000000000000000000000000000000000000000000000000000000000000000000000000000000000000000000000000000000000000000000000000000000000000000000000000000000000000000000000000000000000000

/-- C10: a whole-valued (`fract() == 0`) double result is returned as a
JSON integer through Rust's saturating `as i64` cast, clamping any
whole value beyond the `i64` range to `i64::MAX` / `i64::MIN`; in
particular `{"+": [1e300]}` evaluates to `9223372036854775807`.
(`bigTenPow300` is the mathematical value `10^300`; the IEEE double
`1e300` is the nearest representable neighbour, equally whole and
equally beyond the `i64` range.) -/
theorem c10_saturating_integer_cast (q : Rat) (m : Nat) (hden : q.den = 1) :
    (i64MaxQ < q → to_number_value (.finite q) = .ok (.num i64MaxQ)) ∧
    (q < i64MinQ → to_number_value (.finite q) = .ok (.num i64MinQ)) ∧
    apply (m + 2) (.obj [("+", .arr [.num bigTenPow300])]) (.obj [])
      = .ok (.num 9223372036854775807) := by
  refine ⟨fun hgt => ?_, fun hlt => ?_, ?_⟩
  · simp [to_number_value, hden, f64AsI64Sat, hgt]
  · have hql : q < i64MaxQ := hlt.trans (by norm_num [i64MinQ, i64MaxQ])
    simp [to_number_value, hden, f64AsI64Sat, not_lt.mpr hql.le, hlt]
  · have happly : ∀ (p : Rat),
        apply (m + 2) (.obj [("+", .arr [.num p])]) (.obj [])
          = to_number_value (.finite (0 + p)) := by
      intro p
      simp [apply, parse, parseList, eagerOps, lazyOps, dataOps, List.lookup,
        NumParams.isValidLen, eval, evalArgs, evalEager, parse_float_add,
        parseFloat, bind, Except.bind, Except.map, pure, Except.pure]
    have hcast : to_number_value (.finite bigTenPow300) = .ok (.num i64MaxQ) := by
      simp [to_number_value, f64AsI64Sat, bigTenPow300]
      norm_num [i64MaxQ]
    rw [happly, zero_add, hcast]
    norm_num [i64MaxQ]

/-- C10 (witness): the cast clamps `10^300` (whole, above `i64::MAX`). -/
theorem c10_saturating_integer_cast_witness :
    to_number_value (.finite bigTenPow300) = .ok (.num i64MaxQ) ∧
    apply 2 (.obj [("+", .arr [.num bigTenPow300])]) (.obj [])
      = .ok (.num 9223372036854775807) :=
  ⟨(c10_saturating_integer_cast bigTenPow300 0 (by norm_num [bigTenPow300])).1
      (by norm_num [bigTenPow300, i64MaxQ]),
   (c10_saturating_integer_cast bigTenPow300 0 (by norm_num [bigTenPow300])).2.2⟩
